import Mathlib

/-!
# Verification of `remove_exif.py`

A shallow embedding of the EXIF-stripping orchestrator `remove_exif.py`
(class `ExifRemover`).  Pure helpers of the script become Lean functions;
the filesystem and the external `exiftool` subprocess are modelled as
explicit oracles (`StripEnv`, `InfoEnv`, `RunOutcome`) supplied to the
embedded operations, which return their result together with a log of the
filesystem writes they attempt (`FsEvent`) and of the subprocess
invocations they issue (`ToolCall`).

The script targets Windows (it spawns `exiftool.exe`, passes
`CREATE_NO_WINDOW`, and its banner says "Windows版"), so path joining uses
the backslash separator and filename globbing is case-insensitive, as
CPython's `glob`/`fnmatch` are on Windows.  `os.path.splitext` splits at
the last dot that sits inside the basename and is preceded there by some
non-dot character.  Python `%` on the positive modulus 10000 is the
Euclidean remainder.  Definitions come first, then all theorems.
-/

namespace RemoveExif

/-- The decimal digit character for `d < 10` (as produced by `str(n)`). -/
def digitChar (d : Nat) : Char :=
  match d with
  | 0 => '0' | 1 => '1' | 2 => '2' | 3 => '3' | 4 => '4'
  | 5 => '5' | 6 => '6' | 7 => '7' | 8 => '8' | _ => '9'

/-- Fuel-driven most-significant-first decimal digit list. -/
def decDigitsAux : Nat → Nat → List Char
  | 0, _ => []
  | fuel + 1, n =>
    if n < 10 then [digitChar n]
    else decDigitsAux fuel (n / 10) ++ [digitChar (n % 10)]

/-- Decimal digits of `n`, most significant first; `n + 1` fuel always suffices. -/
def decDigits (n : Nat) : List Char := decDigitsAux (n + 1) n

/-- Python's `str(n)` / f-string rendering of a natural number. -/
def decRepr (n : Nat) : String := ⟨decDigits n⟩

/-- Value of a digit list, used to invert `decDigits`. -/
def decVal (l : List Char) : Nat := l.foldl (fun a c => 10 * a + (c.toNat - 48)) 0

/-- `str.lower()` (the script only compares ASCII extensions).  Defined on
the character list so that closed instances evaluate by kernel reduction. -/
def toLowerStr (s : String) : String := ⟨s.data.map Char.toLower⟩

/-- `str.upper()` (applied to exiftool's reported file type and to glob patterns). -/
def toUpperStr (s : String) : String := ⟨s.data.map Char.toUpper⟩

/-- Python `str.strip()` with no argument: remove ASCII whitespace from
both ends (the script strips exiftool's stdout/stderr). -/
def isPyWhitespace (c : Char) : Bool :=
  c = ' ' ∨ c = '\t' ∨ c = '\n' ∨ c = '\r' ∨ c = '\x0b' ∨ c = '\x0c'

def pyStrip (s : String) : String :=
  ⟨((s.data.dropWhile isPyWhitespace).reverse.dropWhile isPyWhitespace).reverse⟩

/-- `s.startswith(t)` on character lists. -/
def strStartsWith (s t : String) : Bool := t.data.isPrefixOf s.data

/-- `s.endswith(t)` on character lists. -/
def strEndsWith (s t : String) : Bool := t.data.isSuffixOf s.data

/-- `s[n:]` on character lists. -/
def strDrop (s : String) (n : Nat) : String := ⟨s.data.drop n⟩

/-- `os.path.join` on Windows: directory, backslash, name. -/
def pathJoin (d f : String) : String := d ++ "\\" ++ f

/-- Position of the last occurrence of `c`, as `none` or `some` index. -/
def lastIdxOf (c : Char) (l : List Char) : Option Nat :=
  match l.reverse.findIdx? (· = c) with
  | some j => some (l.length - 1 - j)
  | none => none

/-- The split point of `os.path.splitext`: length of the stem part. -/
def splitextIdx (l : List Char) : Nat :=
  let sepStart : Nat :=
    match lastIdxOf '\\' l, lastIdxOf '/' l with
    | some i, some j => max i j + 1
    | some i, none => i + 1
    | none, some j => j + 1
    | none, none => 0
  match lastIdxOf '.' l with
  | some d =>
    if sepStart ≤ d ∧ ((l.drop sepStart).take (d - sepStart)).any (· ≠ '.') then d
    else l.length
  | none => l.length

/-- `os.path.splitext(p)`: the `(root, ext)` pair. -/
def splitext (p : String) : String × String :=
  let i := splitextIdx p.data
  (⟨p.data.take i⟩, ⟨p.data.drop i⟩)

/-- The extension component of `os.path.splitext`. -/
def extOf (p : String) : String := (splitext p).2

/-- `supported_types` in `get_file_info`. -/
def supported_types : List String := ["JPEG", "PNG", "TIFF", "WEBP", "BMP"]

/-- `ExifRemover.check_format_mismatch`: the if/elif chain comparing the
lowercased extension with the extensions canonical for the detected format. -/
def check_format_mismatch (file_path actual_format : String) : Bool :=
  let ext := toLowerStr (extOf file_path)
  if actual_format = "JPEG" ∧ ext ∉ [".jpg", ".jpeg"] then true
  else if actual_format = "PNG" ∧ ext ≠ ".png" then true
  else if actual_format = "TIFF" ∧ ext ∉ [".tiff", ".tif"] then true
  else if actual_format = "WEBP" ∧ ext ≠ ".webp" then true
  else if actual_format = "BMP" ∧ ext ≠ ".bmp" then true
  else false

/-- `ExifRemover.get_correct_extension`: `format_map.get(actual_format, '.tmp')`. -/
def get_correct_extension (actual_format : String) : String :=
  if actual_format = "JPEG" then ".jpg"
  else if actual_format = "PNG" then ".png"
  else if actual_format = "TIFF" then ".tiff"
  else if actual_format = "WEBP" then ".webp"
  else if actual_format = "BMP" then ".bmp"
  else ".tmp"

/-- The residue `hash(file_path) % 10000` (Python `%` on a positive modulus is
the Euclidean remainder, hence in `[0, 10000)`), for an arbitrary model
`phash` of Python's string hash. -/
def hashResidue (phash : String → Int) (file_path : String) : Nat :=
  ((phash file_path) % 10000).toNat

/-- `temp_name = f"exif_temp_{os.getpid()}_{hash(file_path) % 10000}{correct_ext}"`. -/
def temp_name (pid : Nat) (phash : String → Int) (file_path actual_format : String) :
    String :=
  "exif_temp_" ++ decRepr pid ++ "_" ++ decRepr (hashResidue phash file_path)
    ++ get_correct_extension actual_format

/-- `temp_file = os.path.join(temp_dir, temp_name)`. -/
def temp_path (temp_dir : String) (pid : Nat) (phash : String → Int)
    (file_path actual_format : String) : String :=
  pathJoin temp_dir (temp_name pid phash file_path actual_format)

/-- The `k`-th candidate backup name: `name_backup+ext` for `k = 0`, then
`name_backup_k+ext` as produced by the collision loop. -/
def backup_candidate (name ext : String) (k : Nat) : String :=
  match k with
  | 0 => name ++ "_backup" ++ ext
  | k + 1 => name ++ "_backup_" ++ decRepr (k + 1) ++ ext

/-- The `while os.path.exists(backup_path)` loop of `remove_exif_data`,
with explicit fuel: try candidate `k`, move to `k + 1` while it exists. -/
def backup_search (ex : String → Bool) (name ext : String) : Nat → Nat → String
  | 0, k => backup_candidate name ext k
  | fuel + 1, k =>
    if ex (backup_candidate name ext k) then backup_search ex name ext fuel (k + 1)
    else backup_candidate name ext k

/-- The backup path chosen for `file_path` against the filesystem snapshot
`existing` (the paths for which `os.path.exists` answers true).  `existing`
is finite, so fuel `existing.length + 1` reaches a free candidate. -/
def backup_path_of (existing : List String) (file_path : String) : String :=
  let ne := splitext file_path
  backup_search (fun p => decide (p ∈ existing)) ne.1 ne.2 (existing.length + 1) 0

/-- Outcome of one `subprocess.run` call. -/
inductive RunOutcome where
  | ok (returncode : Int) (stdout : String) (stderr : String)
  | timeout
  | exc (msg : String)
deriving DecidableEq, Repr

/-- One recorded `subprocess.run` invocation: argument vector and timeout. -/
structure ToolCall where
  argv : List String
  timeoutSecs : Nat
deriving DecidableEq, Repr

/-- A filesystem write the script attempts.  `copyTo src dst` is
`shutil.copy2(src, dst)`; `toolWrite p` records that the external tool was
run with in-place-overwrite semantics on `p`; `removeTry p ok` is an
attempted `os.remove(p)` with outcome `ok`. -/
inductive FsEvent where
  | copyTo (src dst : String)
  | toolWrite (p : String)
  | removeTry (p : String) (ok : Bool)
deriving DecidableEq, Repr

/-- The path a filesystem event writes to (or deletes). -/
def FsEvent.target : FsEvent → String
  | .copyTo _ dst => dst
  | .toolWrite p => p
  | .removeTry p _ => p

/-- Oracle for one `remove_exif_data` call: every fallible operation of the
body, in source order. -/
structure StripEnv where
  /-- `os.path.getsize(file_path)` at entry (line 128). -/
  size0 : Except String Nat
  /-- snapshot of the paths for which `os.path.exists` answers true. -/
  existing : List String
  /-- `shutil.copy2(file_path, backup_path)`. -/
  copyBackup : Except String Unit
  /-- `shutil.copy2(file_path, temp_file)`. -/
  copyTemp : Except String Unit
  /-- the strip `subprocess.run` invocation. -/
  stripRun : RunOutcome
  /-- `os.path.exists(temp_file)` right after the tool ran. -/
  tempExists : Bool
  /-- `shutil.copy2(temp_file, file_path)` on the success path. -/
  copyBack : Except String Unit
  /-- whether `os.remove(temp_file)` succeeds. -/
  removeOk : Bool
  /-- `os.path.getsize(file_path)` after stripping (line 186). -/
  size1 : Except String Nat

/-- The strip command of `remove_exif_data` (lines 159-166). -/
def strip_cmd (tool working_file : String) : List String :=
  [tool, "-overwrite_original", "-all=", "-TagsFromFile", "@", "-orientation",
    working_file]

/-- `ExifRemover.remove_exif_data`.  Returns the Boolean result together
with the attempted filesystem writes and the subprocess invocations, on
every path: the surrounding `try` turns a timeout or any exception into a
plain `False` result.  Note the cleanup of lines 197-202 sits inside the
`try` body, after the subprocess call, so it is not reached when that call
times out or an exception is raised. -/
def remove_exif_data (env : StripEnv) (tool file_path actual_format : String)
    (create_backup : Bool) (pid : Nat) (phash : String → Int) (temp_dir : String) :
    Bool × List FsEvent × List ToolCall :=
  match env.size0 with
  | .error _ => (false, [], [])
  | .ok _original_size =>
    -- backup stage (lines 131-140)
    let bp := backup_path_of env.existing file_path
    let evB : List FsEvent := if create_backup then [.copyTo file_path bp] else []
    match (if create_backup then env.copyBackup else .ok ()) with
    | .error _ => (false, evB, [])
    | .ok _ =>
      -- temp-copy stage (lines 143-156)
      let format_mismatch := check_format_mismatch file_path actual_format
      let tp := temp_path temp_dir pid phash file_path actual_format
      let temp_file : Option String := if format_mismatch then some tp else none
      let evT : List FsEvent := if format_mismatch then [.copyTo file_path tp] else []
      let working_file := if format_mismatch then tp else file_path
      match (if format_mismatch then env.copyTemp else .ok ()) with
      | .error _ => (false, evB ++ evT, [])
      | .ok _ =>
        -- the strip invocation (lines 159-174)
        let call : ToolCall := ⟨strip_cmd tool working_file, 30⟩
        let ev0 : List FsEvent := evB ++ evT ++ [.toolWrite working_file]
        match env.stripRun with
        | .timeout => (false, ev0, [call])
        | .exc _ => (false, ev0, [call])
        | .ok rc _out _err =>
          if rc = 0 then
            match temp_file with
            | some t =>
              if env.tempExists then
                -- copy back and first removal attempt (lines 179-184)
                match env.copyBack with
                | .error _ => (false, ev0 ++ [.copyTo t file_path], [call])
                | .ok _ =>
                  let ev1 := ev0 ++ [.copyTo t file_path, .removeTry t env.removeOk]
                  match env.size1 with
                  | .error _ => (false, ev1, [call])
                  | .ok _ =>
                    -- cleanup (lines 198-202): temp still exists only if the
                    -- first removal failed
                    let evC : List FsEvent :=
                      if env.tempExists ∧ ¬env.removeOk then [.removeTry t env.removeOk]
                      else []
                    (true, ev1 ++ evC, [call])
              else
                match env.size1 with
                | .error _ => (false, ev0, [call])
                | .ok _ => (true, ev0, [call])
            | none =>
              match env.size1 with
              | .error _ => (false, ev0, [call])
              | .ok _ => (true, ev0, [call])
          else
            -- failure branch (lines 190-195), then cleanup (lines 198-202)
            let evC : List FsEvent :=
              match temp_file with
              | some t => if env.tempExists then [.removeTry t env.removeOk] else []
              | none => []
            (false, ev0 ++ evC, [call])

/-- The candidate locations tried by `find_exiftool`, in order. -/
def possible_paths (exe_directory : String) : List String :=
  [pathJoin exe_directory "exiftool.exe",
   pathJoin exe_directory "exiftool(-k).exe",
   "exiftool.exe"]

/-- The loop body of `find_exiftool` over a list of candidates: run
`[path, '-ver']` with a 5 second timeout; adopt the first candidate that
exits 0, retaining its stripped stdout; any exception, and a non-zero
exit, move on to the next candidate. -/
def find_exiftool_go (ver : String → RunOutcome) : List String →
    Option (String × String) × List ToolCall
  | [] => (none, [])
  | p :: rest =>
    let call : ToolCall := ⟨[p, "-ver"], 5⟩
    match ver p with
    | .ok rc out _err =>
      if rc = 0 then (some (p, (pyStrip out)), [call])
      else
        let r := find_exiftool_go ver rest
        (r.1, call :: r.2)
    | _ =>
      let r := find_exiftool_go ver rest
      (r.1, call :: r.2)

/-- `ExifRemover.find_exiftool`. -/
def find_exiftool (ver : String → RunOutcome) (exe_directory : String) :
    Option (String × String) × List ToolCall :=
  find_exiftool_go ver (possible_paths exe_directory)

/-- Oracle for one `get_file_info` call. -/
structure InfoEnv where
  /-- the `-FileType` query. -/
  typeRun : RunOutcome
  /-- the `-EXIF:all` query. -/
  exifRun : RunOutcome

/-- `ExifRemover.get_file_info`: returns `(file_type, has_exif, error)`
plus the recorded subprocess invocations.  The whole body is wrapped in
`try/except Exception`, which also catches a timeout here. -/
def get_file_info (tool file_path : String) (env : InfoEnv) :
    (Option String × Bool × Option String) × List ToolCall :=
  let c1 : ToolCall := ⟨[tool, "-s", "-s", "-s", "-FileType", file_path], 10⟩
  match env.typeRun with
  | .timeout => ((none, false, some "TimeoutExpired"), [c1])
  | .exc m => ((none, false, some m), [c1])
  | .ok rc out _err =>
    if rc ≠ 0 then ((none, false, some "无法读取文件信息"), [c1])
    else
      let file_type := toUpperStr (pyStrip out)
      if file_type ∉ supported_types then
        ((some file_type, false, some ("不支持的格式: " ++ file_type)), [c1])
      else
        let c2 : ToolCall := ⟨[tool, "-s", "-s", "-s", "-EXIF:all", file_path], 10⟩
        match env.exifRun with
        | .timeout => ((none, false, some "TimeoutExpired"), [c1, c2])
        | .exc m => ((none, false, some m), [c1, c2])
        | .ok _rc2 out2 _err2 =>
          ((some file_type, decide (0 < (pyStrip out2).length), none), [c1, c2])

/-- One glob pattern of `get_image_files`, e.g. `*.jpg`: on Windows,
`glob`/`fnmatch` compare case-insensitively (both sides are normcased,
which lowercases), `*` matches any run of characters, and a name starting
with a dot is not matched by a pattern that does not itself start with a
dot. -/
def glob_match (pat name : String) : Bool :=
  ¬strStartsWith name "." ∧ strEndsWith (toLowerStr name) (toLowerStr (strDrop pat 1))

/-- `glob.glob(pat)` over a directory listing. -/
def glob_glob (dir : List String) (pat : String) : List String :=
  dir.filter (glob_match pat)

/-- The extension patterns of `get_image_files`. -/
def glob_patterns : List String :=
  ["*.jpg", "*.jpeg", "*.png", "*.tiff", "*.tif", "*.webp", "*.bmp"]

/-- `ExifRemover.get_image_files` over a directory listing:
`sorted(list(set(...)))` of the lower- and upper-case globs. -/
def get_image_files (dir : List String) : List String :=
  let collected :=
    glob_patterns.foldl
      (fun acc e => acc ++ glob_glob dir e ++ glob_glob dir (toUpperStr e)) []
  List.insertionSort (· ≤ ·) collected.dedup

/-- Per-file oracle for one iteration of the processing loop of `run`:
the two `os.path.getsize` calls at lines 389 and 394 sit directly in the
loop body, outside any `try`, and the stripping oracle is passed down. -/
structure LoopEnv where
  /-- `os.path.getsize(file)` at line 389, before `remove_exif_data`. -/
  preSize : Except String Nat
  /-- the oracle for the `remove_exif_data` call. -/
  strip : StripEnv
  /-- `os.path.getsize(file)` at line 394, after a successful strip. -/
  postSize : Except String Nat

/-- The processing loop of `run` (lines 387-397) over the files with EXIF
data.  An exception from the two unprotected `getsize` calls propagates
(`.error`), aborting the loop; the events already produced are kept so
that the write footprint of an aborted run can still be stated. -/
def process_files (stepEnv : String → LoopEnv) (fmtOf : String → String)
    (tool : String) (create_backup : Bool) (pid : Nat) (phash : String → Int)
    (temp_dir : String) : List String → Except String (Nat × Nat × Int) × List FsEvent
  | [] => (.ok (0, 0, 0), [])
  | f :: rest =>
    let le := stepEnv f
    match le.preSize with
    | .error e => (.error e, [])
    | .ok s0 =>
      let r := remove_exif_data le.strip tool f (fmtOf f) create_backup pid phash temp_dir
      if r.1 then
        match le.postSize with
        | .error e => (.error e, r.2.1)
        | .ok s1 =>
          let r2 := process_files stepEnv fmtOf tool create_backup pid phash temp_dir rest
          match r2.1 with
          | .ok (p, fl, d) => (.ok (p + 1, fl, d + ((s1 : Int) - (s0 : Int))), r.2.1 ++ r2.2)
          | .error e => (.error e, r.2.1 ++ r2.2)
      else
        let r2 := process_files stepEnv fmtOf tool create_backup pid phash temp_dir rest
        match r2.1 with
        | .ok (p, fl, d) => (.ok (p, fl + 1, d), r.2.1 ++ r2.2)
        | .error e => (.error e, r.2.1 ++ r2.2)

/-- The probe result `run` records for a file: the `(file_type, has_exif,
error)` triple of `get_file_info`. -/
abbrev ProbeResult := Option String × Bool × Option String

/-- The filter of the analysis loop (lines 289-317): a file enters
`files_with_exif` exactly when its probe reported no error and `has_exif`. -/
def files_with_exif (probe : String → ProbeResult) (image_files : List String) :
    List String :=
  image_files.filter (fun f => (probe f).2.2.isNone ∧ (probe f).2.1)

/-- The detected format `run` passes to `remove_exif_data`
(`file_info[file]['type']`); only consulted for files whose probe
succeeded, where it is `some`. -/
def fmt_of_probe (probe : String → ProbeResult) (f : String) : String :=
  match (probe f).1 with
  | some t => t
  | none => ""

/-- Oracle for a whole `run`. -/
structure RunCfg where
  /-- outcomes of the `-ver` probes, per candidate path. -/
  verOut : String → RunOutcome
  /-- `get_image_files` directory listing, or the exception it raises. -/
  listing : Except String (List String)
  /-- per-file oracle for `get_file_info`. -/
  info : String → InfoEnv
  /-- per-file oracle for the processing loop. -/
  step : String → LoopEnv
  /-- the user's answer to "继续处理这些文件?". -/
  proceed : Bool
  /-- the user's answer to "是否创建备份文件?". -/
  create_backup : Bool
  /-- `os.getpid()`. -/
  pid : Nat
  /-- model of Python's string hash. -/
  phash : String → Int
  /-- `tempfile.gettempdir()`. -/
  temp_dir : String
  /-- `self.exe_directory`. -/
  exe_directory : String

/-- `ExifRemover.run`, reduced to its observable filesystem writes and
subprocess invocations (printing and the final key-press prompt are
dropped).  Every early `return` — tool not found, unreadable directory, no
image files, no valid files, no files with EXIF, user declining — yields
no filesystem events. -/
def run_model (cfg : RunCfg) : List FsEvent × List ToolCall :=
  let found := find_exiftool cfg.verOut cfg.exe_directory
  match found.1 with
  | none => ([], found.2)
  | some (tool, _ver) =>
    match cfg.listing with
    | .error _ => ([], found.2)
    | .ok dir =>
      let image_files := get_image_files dir
      let probe := fun f => (get_file_info tool f (cfg.info f)).1
      let icalls := image_files.flatMap (fun f => (get_file_info tool f (cfg.info f)).2)
      let fwe := files_with_exif probe image_files
      if fwe = [] ∨ ¬cfg.proceed then ([], found.2 ++ icalls)
      else
        let pr := process_files cfg.step (fmt_of_probe probe) tool cfg.create_backup
          cfg.pid cfg.phash cfg.temp_dir fwe
        (pr.2, found.2 ++ icalls)

/-- The canonical extension set the spec names for each supported format
(jpg/jpeg for JPEG, png for PNG, tiff/tif for TIFF, webp for WEBP, bmp for
BMP); empty for anything else. -/
def spec_canonical_exts (fmt : String) : List String :=
  if fmt = "JPEG" then [".jpg", ".jpeg"]
  else if fmt = "PNG" then [".png"]
  else if fmt = "TIFF" then [".tiff", ".tif"]
  else if fmt = "WEBP" then [".webp"]
  else if fmt = "BMP" then [".bmp"]
  else []

/-- `senv` with its `removeOk` oracle replaced, for stating that a failed
`os.remove` is swallowed. -/
def withRemoveOk (e : StripEnv) (b : Bool) : StripEnv :=
  ⟨e.size0, e.existing, e.copyBackup, e.copyTemp, e.stripRun, e.tempExists,
    e.copyBack, b, e.size1⟩

/-- The spec's file-selection condition: the `splitext` extension matches
one of the seven image extensions case-insensitively. -/
def spec_ext_match (n : String) : Bool :=
  decide (toLowerStr (extOf n) ∈
    [(".jpg" : String), ".jpeg", ".png", ".tiff", ".tif", ".webp", ".bmp"])

/-- A concrete run configuration: two discovered files, `photo.jpg` with
EXIF and `shot.png` without. -/
def c9cfg : RunCfg :=
  ⟨fun _ => RunOutcome.ok 0 "12" "",
   Except.ok ["photo.jpg", "shot.png"],
   fun g =>
     if g = "shot.png" then ⟨RunOutcome.ok 0 "PNG" "", RunOutcome.ok 0 "" ""⟩
     else ⟨RunOutcome.ok 0 "JPEG" "", RunOutcome.ok 0 "Orientation 6" ""⟩,
   fun _ => ⟨Except.ok 5,
     ⟨Except.ok 5, ["photo.jpg", "shot.png"], Except.ok (), Except.ok (),
       RunOutcome.ok 0 "" "", false, Except.ok (), true, Except.ok 5⟩,
     Except.ok 5⟩,
   true, true, 1, fun _ => 0, "T", "D"⟩

/-! ## Theorems -/

theorem decVal_append_digit (l : List Char) (c : Char) :
    decVal (l ++ [c]) = 10 * decVal l + (c.toNat - 48) := by
  simp [decVal, List.foldl_append]

theorem toNat_digitChar (d : Nat) (h : d < 10) : (digitChar d).toNat - 48 = d := by
  interval_cases d <;> rfl

theorem decVal_foldl_shift (l : List Char) (a : Nat) :
    List.foldl (fun a c => 10 * a + (c.toNat - 48)) a l =
      a * 10 ^ l.length + decVal l := by
  induction l generalizing a with
  | nil => simp [decVal]
  | cons c t ih =>
    simp only [List.foldl_cons, decVal]
    rw [ih, ih (10 * 0 + (c.toNat - 48))]
    simp only [List.length_cons, pow_succ]
    ring

theorem decVal_decDigitsAux (fuel n : Nat) (h : n < fuel) :
    decVal (decDigitsAux fuel n) = n := by
  induction fuel generalizing n with
  | zero => omega
  | succ fuel ih =>
    by_cases h10 : n < 10
    · simp [decDigitsAux, h10, decVal, toNat_digitChar n h10]
    · have hd : n / 10 < fuel := by omega
      simp only [decDigitsAux, h10, if_false]
      rw [decVal_append_digit, ih _ hd, toNat_digitChar (n % 10) (Nat.mod_lt _ (by omega))]
      omega

theorem decVal_decDigits (n : Nat) : decVal (decDigits n) = n :=
  decVal_decDigitsAux (n + 1) n (Nat.lt_succ_self n)

theorem decDigits_injective : Function.Injective decDigits := by
  intro a b h
  have := decVal_decDigits a
  rw [h, decVal_decDigits] at this
  omega

theorem decDigitsAux_ne_nil (fuel n : Nat) (h : n < fuel) :
    decDigitsAux fuel n ≠ [] := by
  cases fuel with
  | zero => omega
  | succ fuel =>
    by_cases h10 : n < 10 <;> simp [decDigitsAux, h10]

theorem decDigits_ne_nil (n : Nat) : decDigits n ≠ [] :=
  decDigitsAux_ne_nil (n + 1) n (Nat.lt_succ_self n)

theorem data_append (a b : String) : (a ++ b).data = a.data ++ b.data :=
  String.data_append a b

theorem splitext_recombines (p : String) : (splitext p).1 ++ (splitext p).2 = p := by
  apply String.ext
  simp [splitext, data_append, List.take_append_drop]

theorem decRepr_inj {a b : Nat} (h : decRepr a = decRepr b) : a = b := by
  apply decDigits_injective
  simpa [decRepr] using congrArg String.data h

theorem decRepr_length_pos (n : Nat) : 0 < (decRepr n).length := by
  have := decDigits_ne_nil n
  have : (decDigits n).length ≠ 0 := fun h0 => this (List.length_eq_zero.mp h0)
  show 0 < (decDigits n).length
  omega

theorem backup_candidate_length_zero (name ext : String) :
    (backup_candidate name ext 0).length = name.length + 7 + ext.length := by
  show (name ++ "_backup" ++ ext).length = name.length + 7 + ext.length
  rw [String.length_append, String.length_append,
    show ("_backup" : String).length = 7 from rfl]

theorem backup_candidate_length_succ (name ext : String) (k : Nat) :
    (backup_candidate name ext (k + 1)).length =
      name.length + 8 + (decRepr (k + 1)).length + ext.length := by
  show (name ++ "_backup_" ++ decRepr (k + 1) ++ ext).length = _
  rw [String.length_append, String.length_append, String.length_append,
    show ("_backup_" : String).length = 8 from rfl]

theorem backup_candidate_inj (name ext : String) :
    Function.Injective (backup_candidate name ext) := by
  intro j k h
  match j, k with
  | 0, 0 => rfl
  | 0, k + 1 =>
    exfalso
    have hl := congrArg String.length h
    rw [backup_candidate_length_zero, backup_candidate_length_succ] at hl
    have := decRepr_length_pos (k + 1)
    omega
  | j + 1, 0 =>
    exfalso
    have hl := congrArg String.length h
    rw [backup_candidate_length_zero, backup_candidate_length_succ] at hl
    have := decRepr_length_pos (j + 1)
    omega
  | j + 1, k + 1 =>
    have hd := congrArg String.data h
    simp only [backup_candidate, data_append, List.append_assoc] at hd
    have hd2 := List.append_cancel_left hd
    have hd3 := List.append_cancel_left hd2
    have hd4 := List.append_cancel_right hd3
    have : (j : Nat) + 1 = k + 1 := decRepr_inj (String.ext hd4)
    omega

theorem backup_candidate_length_gt (name ext : String) (k : Nat) :
    (name ++ ext).length < (backup_candidate name ext k).length := by
  rw [String.length_append]
  match k with
  | 0 => rw [backup_candidate_length_zero]; omega
  | k + 1 =>
    rw [backup_candidate_length_succ]
    have := decRepr_length_pos (k + 1)
    omega

theorem backup_candidate_ne_orig (file_path : String) (k : Nat) :
    backup_candidate (splitext file_path).1 (splitext file_path).2 k ≠ file_path := by
  intro h
  have hlt := backup_candidate_length_gt (splitext file_path).1 (splitext file_path).2 k
  rw [splitext_recombines, h] at hlt
  omega

theorem backup_search_spec (ex : String → Bool) (name ext : String) :
    ∀ (fuel k : Nat), (∃ j, j < fuel ∧ ex (backup_candidate name ext (k + j)) = false) →
      ∃ j, backup_search ex name ext fuel k = backup_candidate name ext (k + j) ∧
        ex (backup_candidate name ext (k + j)) = false ∧
        ∀ i, i < j → ex (backup_candidate name ext (k + i)) = true := by
  intro fuel
  induction fuel with
  | zero =>
    rintro k ⟨j, hj, _⟩
    omega
  | succ fuel ih =>
    rintro k ⟨j, hj, hfree⟩
    by_cases hx : ex (backup_candidate name ext k) = true
    · have hj0 : j ≠ 0 := by
        intro h0
        rw [h0] at hfree
        simp at hfree
        rw [hfree] at hx
        cases hx
      have hex : ∃ j', j' < fuel ∧ ex (backup_candidate name ext ((k + 1) + j')) = false := by
        refine ⟨j - 1, by omega, ?_⟩
        have : (k + 1) + (j - 1) = k + j := by omega
        rw [this]
        exact hfree
      obtain ⟨j', h1, h2, h3⟩ := ih (k + 1) hex
      refine ⟨j' + 1, ?_, ?_, ?_⟩
      · rw [show k + (j' + 1) = (k + 1) + j' by omega]
        simpa [backup_search, hx] using h1
      · rw [show k + (j' + 1) = (k + 1) + j' by omega]
        exact h2
      · intro i hi
        cases i with
        | zero => simpa using hx
        | succ i =>
          rw [show k + (i + 1) = (k + 1) + i by omega]
          exact h3 i (by omega)
    · refine ⟨0, ?_, ?_, ?_⟩
      · simp [backup_search, hx]
      · simpa using eq_false_of_ne_true hx
      · intro i hi
        omega

theorem exists_free_candidate (existing : List String) (name ext : String) :
    ∃ j, j < existing.length + 1 ∧
      decide (backup_candidate name ext j ∈ existing) = false := by
  by_contra hall
  push_neg at hall
  have hmem : ∀ j, j < existing.length + 1 → backup_candidate name ext j ∈ existing := by
    intro j hj
    have hne := hall j hj
    have hdec : decide (backup_candidate name ext j ∈ existing) = true := by
      cases hd : decide (backup_candidate name ext j ∈ existing) with
      | false => exact absurd hd hne
      | true => rfl
    exact of_decide_eq_true hdec
  have hsub : (List.range (existing.length + 1)).map (backup_candidate name ext) ⊆ existing := by
    intro x hx
    obtain ⟨j, hj, rfl⟩ := List.mem_map.mp hx
    exact hmem j (List.mem_range.mp hj)
  have hnd : ((List.range (existing.length + 1)).map (backup_candidate name ext)).Nodup :=
    (List.nodup_range _).map (backup_candidate_inj name ext)
  have hle := (hnd.subperm hsub).length_le
  rw [List.length_map, List.length_range] at hle
  omega

/-- The chosen backup path is the first free candidate: it does not exist,
and every earlier candidate exists. -/
theorem backup_path_of_spec (existing : List String) (file_path : String) :
    ∃ k, backup_path_of existing file_path =
        backup_candidate (splitext file_path).1 (splitext file_path).2 k ∧
      backup_path_of existing file_path ∉ existing ∧
      ∀ i, i < k →
        backup_candidate (splitext file_path).1 (splitext file_path).2 i ∈ existing := by
  obtain ⟨j, hj, hfree⟩ :=
    exists_free_candidate existing (splitext file_path).1 (splitext file_path).2
  obtain ⟨k, h1, h2, h3⟩ := backup_search_spec (fun p => decide (p ∈ existing))
    (splitext file_path).1 (splitext file_path).2 (existing.length + 1) 0
    ⟨j, hj, by rw [Nat.zero_add]; exact hfree⟩
  rw [Nat.zero_add] at h1 h2
  have hbp : backup_path_of existing file_path =
      backup_search (fun p => decide (p ∈ existing)) (splitext file_path).1
        (splitext file_path).2 (existing.length + 1) 0 := rfl
  refine ⟨k, by rw [hbp]; exact h1, ?_, ?_⟩
  · rw [hbp, h1]
    simp only [decide_eq_false_iff_not] at h2
    exact h2
  · intro i hi
    have := h3 i hi
    rw [Nat.zero_add] at this
    exact of_decide_eq_true this

theorem backup_path_of_not_mem (existing : List String) (file_path : String) :
    backup_path_of existing file_path ∉ existing := by
  obtain ⟨k, _, h, _⟩ := backup_path_of_spec existing file_path
  exact h

theorem backup_path_of_ne_orig (existing : List String) (file_path : String) :
    backup_path_of existing file_path ≠ file_path := by
  obtain ⟨k, hk, _, _⟩ := backup_path_of_spec existing file_path
  rw [hk]
  exact backup_candidate_ne_orig file_path k

/-- Every temp path starts with `temp_dir ++ "\exif_temp_"`. -/
theorem temp_path_shape (temp_dir : String) (pid : Nat) (phash : String → Int)
    (file_path actual_format : String) :
    ∃ s, temp_path temp_dir pid phash file_path actual_format =
      (temp_dir ++ "\\exif_temp_") ++ s := by
  refine ⟨decRepr pid ++ "_" ++ decRepr (hashResidue phash file_path)
    ++ get_correct_extension actual_format, ?_⟩
  apply String.ext
  simp [temp_path, temp_name, pathJoin, data_append, List.append_assoc]

/-- Two files with the same detected format receive the same temp name iff
their hash residues mod 10000 agree: the name depends on the path only
through that residue. -/
theorem temp_name_eq_iff (pid : Nat) (phash : String → Int)
    (p₁ p₂ actual_format : String) :
    temp_name pid phash p₁ actual_format = temp_name pid phash p₂ actual_format ↔
      hashResidue phash p₁ = hashResidue phash p₂ := by
  constructor
  · intro h
    have hd := congrArg String.data h
    simp only [temp_name, data_append, List.append_assoc] at hd
    have hd2 := List.append_cancel_left hd
    have hd3 := List.append_cancel_left hd2
    have hd4 := List.append_cancel_left hd3
    have hd5 := List.append_cancel_right hd4
    exact decRepr_inj (String.ext hd5)
  · intro h
    simp [temp_name, h]

/-- C4: `check_format_mismatch` returns true iff the detected format is one
of the five supported ones and the lowercased extension lies outside that
format's canonical set; when it does, the temp copy's name ends in the
canonical extension for the format (which belongs to that canonical set);
and a path whose lowercased extension is canonical for its format is never
flagged. -/
theorem c4_format_mismatch_characterization (p fmt : String) (pid : Nat)
    (phash : String → Int) :
    (check_format_mismatch p fmt = true ↔
      fmt ∈ supported_types ∧ toLowerStr (extOf p) ∉ spec_canonical_exts fmt)
    ∧ (check_format_mismatch p fmt = true →
        get_correct_extension fmt ∈ spec_canonical_exts fmt ∧
        ∃ stem, temp_name pid phash p fmt = stem ++ get_correct_extension fmt)
    ∧ (toLowerStr (extOf p) ∈ spec_canonical_exts fmt →
        check_format_mismatch p fmt = false) := by
  have hname : ∃ stem, temp_name pid phash p fmt = stem ++ get_correct_extension fmt :=
    ⟨"exif_temp_" ++ decRepr pid ++ "_" ++ decRepr (hashResidue phash p), rfl⟩
  by_cases h1 : fmt = "JPEG"
  · subst h1
    by_cases h2 : toLowerStr (extOf p) ∈ [(".jpg" : String), ".jpeg"] <;>
      simp_all [check_format_mismatch, get_correct_extension, spec_canonical_exts,
        supported_types]
  by_cases h2 : fmt = "PNG"
  · subst h2
    by_cases h3 : toLowerStr (extOf p) = ".png" <;>
      simp_all [check_format_mismatch, get_correct_extension, spec_canonical_exts,
        supported_types]
  by_cases h3 : fmt = "TIFF"
  · subst h3
    by_cases h4 : toLowerStr (extOf p) ∈ [(".tiff" : String), ".tif"] <;>
      simp_all [check_format_mismatch, get_correct_extension, spec_canonical_exts,
        supported_types]
  by_cases h4 : fmt = "WEBP"
  · subst h4
    by_cases h5 : toLowerStr (extOf p) = ".webp" <;>
      simp_all [check_format_mismatch, get_correct_extension, spec_canonical_exts,
        supported_types]
  by_cases h5 : fmt = "BMP"
  · subst h5
    by_cases h6 : toLowerStr (extOf p) = ".bmp" <;>
      simp_all [check_format_mismatch, get_correct_extension, spec_canonical_exts,
        supported_types]
  simp_all [check_format_mismatch, spec_canonical_exts, supported_types]

theorem c4_witness :
    check_format_mismatch "photo.png" "JPEG" = true ∧
    (get_correct_extension "JPEG" ∈ spec_canonical_exts "JPEG" ∧
      ∃ stem, temp_name 7 (fun _ => 3) "photo.png" "JPEG" =
        stem ++ get_correct_extension "JPEG") :=
  ⟨by decide,
    (c4_format_mismatch_characterization "photo.png" "JPEG" 7 (fun _ => 3)).2.1
      (by decide)⟩

/-- C6: the chosen backup path is `name_backup+ext` when that path does not
exist, and otherwise `name_backup_k+ext` for the smallest `k ≥ 1` whose
path does not exist; in every case the chosen path did not exist before
the copy. -/
theorem c6_backup_naming (existing : List String) (file_path : String) :
    backup_path_of existing file_path ∉ existing
    ∧ ((splitext file_path).1 ++ "_backup" ++ (splitext file_path).2 ∉ existing →
        backup_path_of existing file_path =
          (splitext file_path).1 ++ "_backup" ++ (splitext file_path).2)
    ∧ ((splitext file_path).1 ++ "_backup" ++ (splitext file_path).2 ∈ existing →
        ∃ k, 1 ≤ k ∧
          backup_path_of existing file_path =
            (splitext file_path).1 ++ "_backup_" ++ decRepr k ++ (splitext file_path).2 ∧
          (splitext file_path).1 ++ "_backup_" ++ decRepr k ++ (splitext file_path).2
            ∉ existing ∧
          ∀ i, 1 ≤ i → i < k →
            (splitext file_path).1 ++ "_backup_" ++ decRepr i ++ (splitext file_path).2
              ∈ existing) := by
  obtain ⟨k, hk, hfree, hbusy⟩ := backup_path_of_spec existing file_path
  refine ⟨hfree, ?_, ?_⟩
  · intro h0
    cases k with
    | zero => exact hk
    | succ k =>
      exfalso
      exact h0 (hbusy 0 (Nat.succ_pos k))
  · intro h0
    cases k with
    | zero =>
      exfalso
      rw [hk] at hfree
      exact hfree h0
    | succ k =>
      refine ⟨k + 1, Nat.succ_le_succ (Nat.zero_le k), hk, ?_, ?_⟩
      · have h2 := hfree
        rw [hk] at h2
        exact h2
      · intro i h1i hik
        cases i with
        | zero => omega
        | succ i => exact hbusy (i + 1) hik

theorem c6_witness :
    backup_path_of ["a_backup.jpg", "a_backup_1.jpg"] "a.jpg"
        ∉ ["a_backup.jpg", "a_backup_1.jpg"] ∧
    ∃ k, 1 ≤ k ∧
      backup_path_of ["a_backup.jpg", "a_backup_1.jpg"] "a.jpg" =
        (splitext "a.jpg").1 ++ "_backup_" ++ decRepr k ++ (splitext "a.jpg").2 ∧
      (splitext "a.jpg").1 ++ "_backup_" ++ decRepr k ++ (splitext "a.jpg").2
        ∉ ["a_backup.jpg", "a_backup_1.jpg"] ∧
      ∀ i, 1 ≤ i → i < k →
        (splitext "a.jpg").1 ++ "_backup_" ++ decRepr i ++ (splitext "a.jpg").2
          ∈ ["a_backup.jpg", "a_backup_1.jpg"] :=
  ⟨(c6_backup_naming ["a_backup.jpg", "a_backup_1.jpg"] "a.jpg").1,
    (c6_backup_naming ["a_backup.jpg", "a_backup_1.jpg"] "a.jpg").2.2 (by decide)⟩

/-- C7 (counterexample): it is not true that for every process id and every
model of Python's string hash, two distinct source paths always get
distinct temp names — the name depends on the path only through
`hash(path) % 10000`, so residue collisions produce identical names. -/
theorem c7_counterexample :
    ¬ ∀ (phash : String → Int) (pid : Nat) (p₁ p₂ fmt₁ fmt₂ : String),
        p₁ ≠ p₂ → temp_name pid phash p₁ fmt₁ ≠ temp_name pid phash p₂ fmt₂ := by
  intro h
  exact h (fun _ => 0) 0 "a.jpg" "b.jpg" "JPEG" "JPEG" (by decide) (by decide)

/-- C7 (amended): two files with the same detected format get distinct temp
names exactly when their hash residues mod 10000 differ; in particular
distinct residues guarantee distinct names, but distinct paths do not. -/
theorem c7_temp_name_uniqueness (phash : String → Int) (pid : Nat)
    (p₁ p₂ fmt : String) (h : hashResidue phash p₁ ≠ hashResidue phash p₂) :
    temp_name pid phash p₁ fmt ≠ temp_name pid phash p₂ fmt := by
  intro he
  exact h ((temp_name_eq_iff pid phash p₁ p₂ fmt).mp he)

theorem find_exiftool_go_calls (ver : String → RunOutcome) (l : List String) :
    ∀ c ∈ (find_exiftool_go ver l).2, ∃ p ∈ l, c = ⟨[p, "-ver"], 5⟩ := by
  induction l with
  | nil => intro c hc; cases hc
  | cons p rest ih =>
    intro c hc
    rcases hv : ver p with ⟨rc, out, err⟩ | _ | m
    · by_cases hrc : rc = 0
      · simp only [find_exiftool_go, hv, hrc, if_pos, List.mem_singleton] at hc
        subst hc
        exact ⟨p, List.mem_cons_self p rest, by simp [hrc]⟩
      · simp only [find_exiftool_go, hv, if_neg hrc, List.mem_cons] at hc
        rcases hc with rfl | hc'
        · exact ⟨p, List.mem_cons_self p rest, rfl⟩
        · obtain ⟨q, hq, rfl⟩ := ih c hc'
          exact ⟨q, List.mem_cons_of_mem p hq, rfl⟩
    · simp only [find_exiftool_go, hv, List.mem_cons] at hc
      rcases hc with rfl | hc'
      · exact ⟨p, List.mem_cons_self p rest, rfl⟩
      · obtain ⟨q, hq, rfl⟩ := ih c hc'
        exact ⟨q, List.mem_cons_of_mem p hq, rfl⟩
    · simp only [find_exiftool_go, hv, List.mem_cons] at hc
      rcases hc with rfl | hc'
      · exact ⟨p, List.mem_cons_self p rest, rfl⟩
      · obtain ⟨q, hq, rfl⟩ := ih c hc'
        exact ⟨q, List.mem_cons_of_mem p hq, rfl⟩

theorem get_file_info_calls (tool file_path : String) (env : InfoEnv) :
    (get_file_info tool file_path env).2 =
        [⟨[tool, "-s", "-s", "-s", "-FileType", file_path], 10⟩] ∨
      (get_file_info tool file_path env).2 =
        [⟨[tool, "-s", "-s", "-s", "-FileType", file_path], 10⟩,
         ⟨[tool, "-s", "-s", "-s", "-EXIF:all", file_path], 10⟩] := by
  rcases ht : env.typeRun with ⟨rc, out, err⟩ | _ | m
  · by_cases hrc : rc = 0
    · by_cases hs : toUpperStr (pyStrip out) ∈ supported_types
      · rcases he : env.exifRun with ⟨rc2, out2, err2⟩ | _ | m2 <;>
          simp [get_file_info, ht, hrc, hs, he]
      · simp [get_file_info, ht, hrc, hs]
    · simp [get_file_info, ht, hrc]
  · simp [get_file_info, ht]
  · simp [get_file_info, ht]

theorem remove_exif_data_calls (senv : StripEnv) (tool file_path actual_format : String)
    (create_backup : Bool) (pid : Nat) (phash : String → Int) (temp_dir : String) :
    (remove_exif_data senv tool file_path actual_format create_backup pid phash
        temp_dir).2.2 = [] ∨
      (remove_exif_data senv tool file_path actual_format create_backup pid phash
        temp_dir).2.2 =
        [⟨strip_cmd tool
            (if check_format_mismatch file_path actual_format
              then temp_path temp_dir pid phash file_path actual_format
              else file_path), 30⟩] := by
  rcases h0 : senv.size0 with e | n
  · simp [remove_exif_data, h0]
  rcases hcb : (if create_backup then senv.copyBackup else Except.ok ()) with e | u
  · simp [remove_exif_data, h0, hcb]
  by_cases hm : check_format_mismatch file_path actual_format
  · rcases hct : senv.copyTemp with e | u
    · simp [remove_exif_data, h0, hcb, hm, hct]
    rcases hs : senv.stripRun with ⟨rc, out, err⟩ | _ | m
    · by_cases hrc : rc = 0
      · by_cases hte : senv.tempExists
        · rcases hcb2 : senv.copyBack with e | u
          · simp [remove_exif_data, h0, hcb, hm, hct, hs, hrc, hte, hcb2]
          rcases hs1 : senv.size1 with e | n1 <;>
            simp [remove_exif_data, h0, hcb, hm, hct, hs, hrc, hte, hcb2, hs1]
        · rcases hs1 : senv.size1 with e | n1 <;>
            simp [remove_exif_data, h0, hcb, hm, hct, hs, hrc, hte, hs1]
      · simp [remove_exif_data, h0, hcb, hm, hct, hs, hrc]
    · simp [remove_exif_data, h0, hcb, hm, hct, hs]
    · simp [remove_exif_data, h0, hcb, hm, hct, hs]
  · rcases hs : senv.stripRun with ⟨rc, out, err⟩ | _ | m
    · by_cases hrc : rc = 0
      · rcases hs1 : senv.size1 with e | n1 <;>
          simp [remove_exif_data, h0, hcb, hm, hs, hrc, hs1]
      · simp [remove_exif_data, h0, hcb, hm, hs, hrc]
    · simp [remove_exif_data, h0, hcb, hm, hs]
    · simp [remove_exif_data, h0, hcb, hm, hs]

/-- C3: every external-tool invocation the embedding records carries
exactly the specified argument vector and timeout: version probes
`[candidate, '-ver']` with 5 seconds; the file-type query
`[tool, '-s', '-s', '-s', '-FileType', path]` and the EXIF query
`[tool, '-s', '-s', '-s', '-EXIF:all', path]` with 10 seconds (the second
issued only after the first); and the strip
`[tool, '-overwrite_original', '-all=', '-TagsFromFile', '@',
'-orientation', working]` with 30 seconds, where `working` is the
correctly-extensioned temp copy on a format mismatch and the original
path otherwise. -/
theorem c3_invocation_vectors (ver : String → RunOutcome)
    (exe_directory tool file_path actual_format : String) (ienv : InfoEnv)
    (senv : StripEnv) (create_backup : Bool) (pid : Nat) (phash : String → Int)
    (temp_dir : String) :
    (∀ c ∈ (find_exiftool ver exe_directory).2,
      ∃ p ∈ possible_paths exe_directory, c = ⟨[p, "-ver"], 5⟩)
    ∧ ((get_file_info tool file_path ienv).2 =
          [⟨[tool, "-s", "-s", "-s", "-FileType", file_path], 10⟩] ∨
        (get_file_info tool file_path ienv).2 =
          [⟨[tool, "-s", "-s", "-s", "-FileType", file_path], 10⟩,
           ⟨[tool, "-s", "-s", "-s", "-EXIF:all", file_path], 10⟩])
    ∧ ((remove_exif_data senv tool file_path actual_format create_backup pid phash
          temp_dir).2.2 = [] ∨
        (remove_exif_data senv tool file_path actual_format create_backup pid phash
          temp_dir).2.2 =
          [⟨[tool, "-overwrite_original", "-all=", "-TagsFromFile", "@",
              "-orientation",
              if check_format_mismatch file_path actual_format
                then temp_path temp_dir pid phash file_path actual_format
                else file_path], 30⟩]) :=
  ⟨find_exiftool_go_calls ver (possible_paths exe_directory),
   get_file_info_calls tool file_path ienv,
   remove_exif_data_calls senv tool file_path actual_format create_backup pid phash
     temp_dir⟩

theorem c3_witness :
    (∃ p ∈ possible_paths "C:\\app",
      (⟨[pathJoin "C:\\app" "exiftool.exe", "-ver"], 5⟩ : ToolCall) =
        ⟨[p, "-ver"], 5⟩) ∧
    ((get_file_info "et" "f.png" ⟨RunOutcome.ok 0 "jpeg" "", RunOutcome.ok 0 "x" ""⟩).2 =
        [⟨["et", "-s", "-s", "-s", "-FileType", "f.png"], 10⟩] ∨
      (get_file_info "et" "f.png" ⟨RunOutcome.ok 0 "jpeg" "", RunOutcome.ok 0 "x" ""⟩).2 =
        [⟨["et", "-s", "-s", "-s", "-FileType", "f.png"], 10⟩,
         ⟨["et", "-s", "-s", "-s", "-EXIF:all", "f.png"], 10⟩]) := by
  have h := c3_invocation_vectors (fun _ => RunOutcome.timeout) "C:\\app" "et" "f.png"
    "JPEG" ⟨RunOutcome.ok 0 "jpeg" "", RunOutcome.ok 0 "x" ""⟩
    ⟨Except.ok 4, [], Except.ok (), Except.ok (), RunOutcome.timeout, true,
      Except.ok (), true, Except.ok 4⟩ true 7 (fun _ => 3) "C:\\tmp"
  exact ⟨h.1 ⟨[pathJoin "C:\\app" "exiftool.exe", "-ver"], 5⟩ (by decide), h.2.1⟩

theorem remove_exif_data_result_ignores_removeOk (senv : StripEnv) (b : Bool)
    (tool file_path actual_format : String) (create_backup : Bool) (pid : Nat)
    (phash : String → Int) (temp_dir : String) :
    (remove_exif_data (withRemoveOk senv b) tool file_path actual_format
        create_backup pid phash temp_dir).1 =
      (remove_exif_data senv tool file_path actual_format create_backup pid phash
        temp_dir).1 := by
  rcases h0 : senv.size0 with e | n
  · simp [remove_exif_data, withRemoveOk, h0]
  rcases hcb : (if create_backup then senv.copyBackup else Except.ok ()) with e | u
  · simp [remove_exif_data, withRemoveOk, h0, hcb]
  by_cases hm : check_format_mismatch file_path actual_format
  · rcases hct : senv.copyTemp with e | u
    · simp [remove_exif_data, withRemoveOk, h0, hcb, hm, hct]
    rcases hs : senv.stripRun with ⟨rc, out, err⟩ | _ | m
    · by_cases hrc : rc = 0
      · by_cases hte : senv.tempExists
        · rcases hcb2 : senv.copyBack with e | u
          · simp [remove_exif_data, withRemoveOk, h0, hcb, hm, hct, hs, hrc, hte, hcb2]
          rcases hs1 : senv.size1 with e | n1 <;>
            simp [remove_exif_data, withRemoveOk, h0, hcb, hm, hct, hs, hrc, hte,
              hcb2, hs1]
        · rcases hs1 : senv.size1 with e | n1 <;>
            simp [remove_exif_data, withRemoveOk, h0, hcb, hm, hct, hs, hrc, hte, hs1]
      · simp [remove_exif_data, withRemoveOk, h0, hcb, hm, hct, hs, hrc]
    · simp [remove_exif_data, withRemoveOk, h0, hcb, hm, hct, hs]
    · simp [remove_exif_data, withRemoveOk, h0, hcb, hm, hct, hs]
  · rcases hs : senv.stripRun with ⟨rc, out, err⟩ | _ | m
    · by_cases hrc : rc = 0
      · rcases hs1 : senv.size1 with e | n1 <;>
          simp [remove_exif_data, withRemoveOk, h0, hcb, hm, hs, hrc, hs1]
      · simp [remove_exif_data, withRemoveOk, h0, hcb, hm, hs, hrc]
    · simp [remove_exif_data, withRemoveOk, h0, hcb, hm, hs]
    · simp [remove_exif_data, withRemoveOk, h0, hcb, hm, hs]

/-- C2 (counterexample): on the timeout exit path the temp-file deletion is
NOT attempted.  `subprocess.TimeoutExpired` jumps straight to the handler
at line 206, and the cleanup of lines 197-202 lies inside the `try` body
after the subprocess call, so for this mismatch-routed file the event log
holds the backup copy, the temp copy and the tool invocation — and no
`os.remove` attempt at all, contradicting "deletion is attempted on every
exit path". -/
theorem c2_counterexample :
    check_format_mismatch "photo.png" "JPEG" = true ∧
    (remove_exif_data
        ⟨Except.ok 100, [], Except.ok (), Except.ok (), RunOutcome.timeout, true,
          Except.ok (), true, Except.ok 100⟩
        "et" "photo.png" "JPEG" true 7 (fun _ => 3) "C:\\tmp").2.1 =
      [FsEvent.copyTo "photo.png" "photo_backup.png",
       FsEvent.copyTo "photo.png" "C:\\tmp\\exif_temp_7_3.jpg",
       FsEvent.toolWrite "C:\\tmp\\exif_temp_7_3.jpg"] ∧
    (∀ p ok, FsEvent.removeTry p ok ∉
      (remove_exif_data
        ⟨Except.ok 100, [], Except.ok (), Except.ok (), RunOutcome.timeout, true,
          Except.ok (), true, Except.ok 100⟩
        "et" "photo.png" "JPEG" true 7 (fun _ => 3) "C:\\tmp").2.1) := by
  have hev : (remove_exif_data
      ⟨Except.ok 100, [], Except.ok (), Except.ok (), RunOutcome.timeout, true,
        Except.ok (), true, Except.ok 100⟩
      "et" "photo.png" "JPEG" true 7 (fun _ => 3) "C:\\tmp").2.1 =
      [FsEvent.copyTo "photo.png" "photo_backup.png",
       FsEvent.copyTo "photo.png" "C:\\tmp\\exif_temp_7_3.jpg",
       FsEvent.toolWrite "C:\\tmp\\exif_temp_7_3.jpg"] := by decide
  refine ⟨by decide, hev, ?_⟩
  intro p ok h
  rw [hev] at h
  simp at h

/-- C2 (amended): when the file is routed through a temp copy and the strip
subprocess returns a result with the temp file still present, deletion of
the temp file is attempted — both on exit code zero (after a successful
copy-back) and on non-zero exit; a failed deletion is swallowed, never
changing the reported result.  On a timeout or any other exception, no
deletion is attempted. -/
theorem c2_temp_cleanup (senv : StripEnv) (tool file_path actual_format : String)
    (create_backup : Bool) (pid : Nat) (phash : String → Int) (temp_dir : String)
    (n : Nat) (h0 : senv.size0 = Except.ok n)
    (hcb : (if create_backup then senv.copyBackup else Except.ok ()) = Except.ok ())
    (hm : check_format_mismatch file_path actual_format = true)
    (hct : senv.copyTemp = Except.ok ())
    (hte : senv.tempExists = true) :
    (∀ rc out err, senv.stripRun = RunOutcome.ok rc out err → rc ≠ 0 →
      FsEvent.removeTry (temp_path temp_dir pid phash file_path actual_format)
          senv.removeOk ∈
        (remove_exif_data senv tool file_path actual_format create_backup pid phash
          temp_dir).2.1)
    ∧ (∀ rc out err, senv.stripRun = RunOutcome.ok rc out err → rc = 0 →
        senv.copyBack = Except.ok () →
        FsEvent.removeTry (temp_path temp_dir pid phash file_path actual_format)
            senv.removeOk ∈
          (remove_exif_data senv tool file_path actual_format create_backup pid phash
            temp_dir).2.1)
    ∧ (senv.stripRun = RunOutcome.timeout →
        ∀ p ok, FsEvent.removeTry p ok ∉
          (remove_exif_data senv tool file_path actual_format create_backup pid phash
            temp_dir).2.1)
    ∧ (∀ m, senv.stripRun = RunOutcome.exc m →
        ∀ p ok, FsEvent.removeTry p ok ∉
          (remove_exif_data senv tool file_path actual_format create_backup pid phash
            temp_dir).2.1)
    ∧ (∀ b, (remove_exif_data (withRemoveOk senv b) tool file_path actual_format
          create_backup pid phash temp_dir).1 =
        (remove_exif_data senv tool file_path actual_format create_backup pid phash
          temp_dir).1) := by
  refine ⟨?_, ?_, ?_, ?_, fun b =>
    remove_exif_data_result_ignores_removeOk senv b tool file_path actual_format
      create_backup pid phash temp_dir⟩
  · intro rc out err hs hrc
    simp [remove_exif_data, h0, hcb, hm, hct, hs, hrc, hte]
  · intro rc out err hs hrc hcb2
    subst hrc
    rcases hs1 : senv.size1 with e | n1 <;>
      simp [remove_exif_data, h0, hcb, hm, hct, hs, hte, hcb2, hs1]
  · intro hs p ok h
    simp [remove_exif_data, h0, hcb, hm, hct, hs] at h
  · intro m hs p ok h
    simp [remove_exif_data, h0, hcb, hm, hct, hs] at h

theorem c2_witness :
    (⟨Except.ok 9, [], Except.ok (), Except.ok (),
        RunOutcome.ok 1 "" "err", true, Except.ok (), false, Except.ok 9⟩ :
      StripEnv).stripRun = RunOutcome.ok 1 "" "err" ∧
    FsEvent.removeTry (temp_path "T" 1 (fun _ => 0) "p.png" "JPEG") false ∈
      (remove_exif_data
        ⟨Except.ok 9, [], Except.ok (), Except.ok (),
          RunOutcome.ok 1 "" "err", true, Except.ok (), false, Except.ok 9⟩
        "et" "p.png" "JPEG" false 1 (fun _ => 0) "T").2.1 :=
  ⟨rfl,
    (c2_temp_cleanup
      ⟨Except.ok 9, [], Except.ok (), Except.ok (),
        RunOutcome.ok 1 "" "err", true, Except.ok (), false, Except.ok 9⟩
      "et" "p.png" "JPEG" false 1 (fun _ => 0) "T" 9 rfl rfl (by decide) rfl rfl).1
      1 "" "err" rfl (by decide)⟩

/-- C5: for a file routed through the temp copy (format mismatch), when the
strip subprocess exits non-zero the embedding reports failure, the event
log is exactly backup copy (when requested), copy to temp, tool write on
the temp copy, and the cleanup attempt — no attempted write targets the
original path (the strip touched only the temp copy, and the copy-back
over the original happens only on exit code zero), the backup copy is
present when requested, and every deletion attempt targets the temp file
only, so the backup is kept. -/
theorem c5_failed_strip_preserves_original (senv : StripEnv)
    (tool file_path actual_format : String) (create_backup : Bool) (pid : Nat)
    (phash : String → Int) (temp_dir : String) (n : Nat) (rc : Int)
    (out err : String)
    (h0 : senv.size0 = Except.ok n)
    (hcb : (if create_backup then senv.copyBackup else Except.ok ()) = Except.ok ())
    (hm : check_format_mismatch file_path actual_format = true)
    (hct : senv.copyTemp = Except.ok ())
    (hs : senv.stripRun = RunOutcome.ok rc out err)
    (hrc : rc ≠ 0)
    (hfp : file_path ≠ temp_path temp_dir pid phash file_path actual_format) :
    (remove_exif_data senv tool file_path actual_format create_backup pid phash
        temp_dir).1 = false
    ∧ (remove_exif_data senv tool file_path actual_format create_backup pid phash
        temp_dir).2.1 =
        (if create_backup then
          [FsEvent.copyTo file_path (backup_path_of senv.existing file_path)]
        else [])
        ++ [FsEvent.copyTo file_path
              (temp_path temp_dir pid phash file_path actual_format),
            FsEvent.toolWrite (temp_path temp_dir pid phash file_path actual_format)]
        ++ (if senv.tempExists then
            [FsEvent.removeTry (temp_path temp_dir pid phash file_path actual_format)
              senv.removeOk]
          else [])
    ∧ file_path ∉ ((remove_exif_data senv tool file_path actual_format create_backup
        pid phash temp_dir).2.1).map FsEvent.target
    ∧ (create_backup = true →
        FsEvent.copyTo file_path (backup_path_of senv.existing file_path) ∈
          (remove_exif_data senv tool file_path actual_format create_backup pid phash
            temp_dir).2.1)
    ∧ (∀ p ok, FsEvent.removeTry p ok ∈
          (remove_exif_data senv tool file_path actual_format create_backup pid phash
            temp_dir).2.1 →
        p = temp_path temp_dir pid phash file_path actual_format) := by
  have hbne : backup_path_of senv.existing file_path ≠ file_path :=
    backup_path_of_ne_orig senv.existing file_path
  have hev : (remove_exif_data senv tool file_path actual_format create_backup pid
      phash temp_dir).2.1 =
      (if create_backup then
        [FsEvent.copyTo file_path (backup_path_of senv.existing file_path)]
      else [])
      ++ [FsEvent.copyTo file_path
            (temp_path temp_dir pid phash file_path actual_format),
          FsEvent.toolWrite (temp_path temp_dir pid phash file_path actual_format)]
      ++ (if senv.tempExists then
          [FsEvent.removeTry (temp_path temp_dir pid phash file_path actual_format)
            senv.removeOk]
        else []) := by
    cases hc : create_backup with
    | false =>
      cases hte : senv.tempExists <;>
        simp [remove_exif_data, h0, hm, hct, hs, hrc, hte]
    | true =>
      have hcbx : senv.copyBackup = Except.ok () := by simpa [hc] using hcb
      cases hte : senv.tempExists <;>
        simp [remove_exif_data, h0, hcbx, hm, hct, hs, hrc, hte]
  refine ⟨by simp [remove_exif_data, h0, hcb, hm, hct, hs, hrc], hev, ?_, ?_, ?_⟩
  · rw [hev]
    cases hc : create_backup <;> cases hte : senv.tempExists <;>
      simp [FsEvent.target, hfp, Ne.symm hbne]
  · intro hc
    rw [hev]
    simp [hc]
  · intro p ok h
    rw [hev] at h
    cases hc : create_backup <;> cases hte : senv.tempExists <;>
      rw [hc] at h <;> rw [hte] at h <;> simp at h
    · exact h.1
    · exact h.1

theorem c5_witness :
    (remove_exif_data
        ⟨Except.ok 9, [], Except.ok (), Except.ok (), RunOutcome.ok 1 "" "e",
          true, Except.ok (), true, Except.ok 9⟩
        "et" "p.png" "JPEG" true 1 (fun _ => 0) "T").1 = false ∧
    "p.png" ∉ ((remove_exif_data
        ⟨Except.ok 9, [], Except.ok (), Except.ok (), RunOutcome.ok 1 "" "e",
          true, Except.ok (), true, Except.ok 9⟩
        "et" "p.png" "JPEG" true 1 (fun _ => 0) "T").2.1).map FsEvent.target ∧
    FsEvent.copyTo "p.png"
        (backup_path_of []
          "p.png") ∈
      (remove_exif_data
        ⟨Except.ok 9, [], Except.ok (), Except.ok (), RunOutcome.ok 1 "" "e",
          true, Except.ok (), true, Except.ok 9⟩
        "et" "p.png" "JPEG" true 1 (fun _ => 0) "T").2.1 := by
  have h := c5_failed_strip_preserves_original
    ⟨Except.ok 9, [], Except.ok (), Except.ok (), RunOutcome.ok 1 "" "e",
      true, Except.ok (), true, Except.ok 9⟩
    "et" "p.png" "JPEG" true 1 (fun _ => 0) "T" 9 1 "" "e"
    rfl rfl (by decide) rfl rfl (by decide) (by decide)
  exact ⟨h.1, h.2.2.1, h.2.2.2.1 rfl⟩

/-- C1 (counterexample): it is not true that the batch loop survives every
per-file filesystem outcome.  `os.path.getsize(file)` at line 389 sits in
the loop body outside any `try`; when it raises (file locked or deleted
between analysis and processing) the exception propagates out of the loop
and aborts the whole run, even though neither directory listing nor tool
location failed. -/
theorem c1_counterexample :
    ¬ ∀ (stepEnv : String → LoopEnv) (fmtOf : String → String) (tool : String)
        (cb : Bool) (pid : Nat) (phash : String → Int) (td : String)
        (files : List String),
        ∃ p fl d, (process_files stepEnv fmtOf tool cb pid phash td files).1 =
            Except.ok (p, fl, d) ∧ p + fl = files.length := by
  intro h
  obtain ⟨p, fl, d, heq, _⟩ := h
    (fun _ => ⟨Except.error "WinError 32",
      ⟨Except.ok 0, [], Except.ok (), Except.ok (), RunOutcome.timeout, false,
        Except.ok (), true, Except.ok 0⟩,
      Except.ok 0⟩)
    (fun _ => "JPEG") "et" false 1 (fun _ => 0) "T" ["a.jpg"]
  simp [process_files] at heq

/-- C1 (amended): provided the two unprotected `getsize` calls of the loop
body succeed for every file, the batch completes no matter what happens
inside `remove_exif_data` — for every stripping oracle (non-zero exit,
timeout, or any exception during backup, temp copying, stripping, or the
size measurements inside `remove_exif_data`) the per-file step returns a
plain success/failure Boolean and every file is counted as processed or
failed.  Only the loop's own size measurements (and, upstream, directory
listing and tool location) can abort the run. -/
theorem c1_batch_continues (stepEnv : String → LoopEnv) (fmtOf : String → String)
    (tool : String) (cb : Bool) (pid : Nat) (phash : String → Int) (td : String)
    (files : List String)
    (hpre : ∀ f ∈ files, ∃ n, (stepEnv f).preSize = Except.ok n)
    (hpost : ∀ f ∈ files, ∃ n, (stepEnv f).postSize = Except.ok n) :
    ∃ p fl d, (process_files stepEnv fmtOf tool cb pid phash td files).1 =
        Except.ok (p, fl, d) ∧ p + fl = files.length := by
  induction files with
  | nil => exact ⟨0, 0, 0, rfl, rfl⟩
  | cons f rest ih =>
    obtain ⟨n0, hn0⟩ := hpre f (List.mem_cons_self f rest)
    obtain ⟨p, fl, d, hrest, hsum⟩ :=
      ih (fun g hg => hpre g (List.mem_cons_of_mem f hg))
        (fun g hg => hpost g (List.mem_cons_of_mem f hg))
    by_cases hr : (remove_exif_data (stepEnv f).strip tool f (fmtOf f) cb pid phash
        td).1 = true
    · obtain ⟨n1, hn1⟩ := hpost f (List.mem_cons_self f rest)
      refine ⟨p + 1, fl, d + ((n1 : Int) - (n0 : Int)), ?_, ?_⟩
      · simp [process_files, hn0, hn1, hr, hrest]
      · simp only [List.length_cons]
        omega
    · refine ⟨p, fl + 1, d, ?_, ?_⟩
      · simp [process_files, hn0, hr, hrest]
      · simp only [List.length_cons]
        omega

theorem c1_witness :
    ∃ p fl d,
      (process_files
        (fun _ => ⟨Except.ok 5,
          ⟨Except.ok 5, [], Except.ok (), Except.ok (), RunOutcome.timeout, false,
            Except.ok (), true, Except.ok 5⟩,
          Except.ok 5⟩)
        (fun _ => "JPEG") "et" false 1 (fun _ => 0) "T" ["a.jpg", "b.jpg"]).1 =
          Except.ok (p, fl, d) ∧
      p + fl = (["a.jpg", "b.jpg"] : List String).length :=
  c1_batch_continues
    (fun _ => ⟨Except.ok 5,
      ⟨Except.ok 5, [], Except.ok (), Except.ok (), RunOutcome.timeout, false,
        Except.ok (), true, Except.ok 5⟩,
      Except.ok 5⟩)
    (fun _ => "JPEG") "et" false 1 (fun _ => 0) "T" ["a.jpg", "b.jpg"]
    (fun _ _ => ⟨5, rfl⟩) (fun _ _ => ⟨5, rfl⟩)

theorem find_exiftool_go_spec (ver : String → RunOutcome) (l : List String) :
    ((find_exiftool_go ver l).1 = none ↔
      ∀ p ∈ l, ∀ rc out err, ver p = RunOutcome.ok rc out err → rc ≠ 0)
    ∧ (∀ p v, (find_exiftool_go ver l).1 = some (p, v) →
        ∃ l₁ l₂, l = l₁ ++ p :: l₂ ∧
          (∀ q ∈ l₁, ∀ rc out err, ver q = RunOutcome.ok rc out err → rc ≠ 0) ∧
          ∃ out err, ver p = RunOutcome.ok 0 out err ∧ v = pyStrip out) := by
  induction l with
  | nil =>
    exact ⟨by simp [find_exiftool_go], by simp [find_exiftool_go]⟩
  | cons p rest ih =>
    rcases hv : ver p with ⟨rc, out, err⟩ | _ | m
    · by_cases hrc : rc = 0
      · subst hrc
        constructor
        · simp only [find_exiftool_go, hv]
          constructor
          · intro h
            simp at h
          · intro h
            exact absurd rfl (h p (List.mem_cons_self p rest) 0 out err hv)
        · intro q v hq
          simp [find_exiftool_go, hv] at hq
          obtain ⟨rfl, rfl⟩ := hq
          exact ⟨[], rest, rfl, by simp, out, err, hv, rfl⟩
      · constructor
        · simp only [find_exiftool_go, hv, if_neg hrc]
          rw [ih.1]
          constructor
          · intro h q hq rc2 out2 err2 hver
            rcases List.mem_cons.mp hq with rfl | hq'
            · rw [hv] at hver
              cases hver
              exact hrc
            · exact h q hq' rc2 out2 err2 hver
          · intro h q hq rc2 out2 err2 hver
            exact h q (List.mem_cons_of_mem p hq) rc2 out2 err2 hver
        · intro q v hq
          simp only [find_exiftool_go, hv, if_neg hrc] at hq
          obtain ⟨l₁, l₂, hl, hfail, hout⟩ := ih.2 q v hq
          refine ⟨p :: l₁, l₂, by simp [hl], ?_, hout⟩
          intro q' hq' rc2 out2 err2 hver
          rcases List.mem_cons.mp hq' with rfl | hq''
          · rw [hv] at hver
            cases hver
            exact hrc
          · exact hfail q' hq'' rc2 out2 err2 hver
    · constructor
      · simp only [find_exiftool_go, hv]
        rw [ih.1]
        constructor
        · intro h q hq rc2 out2 err2 hver
          rcases List.mem_cons.mp hq with rfl | hq'
          · rw [hv] at hver
            cases hver
          · exact h q hq' rc2 out2 err2 hver
        · intro h q hq rc2 out2 err2 hver
          exact h q (List.mem_cons_of_mem p hq) rc2 out2 err2 hver
      · intro q v hq
        simp only [find_exiftool_go, hv] at hq
        obtain ⟨l₁, l₂, hl, hfail, hout⟩ := ih.2 q v hq
        refine ⟨p :: l₁, l₂, by simp [hl], ?_, hout⟩
        intro q' hq' rc2 out2 err2 hver
        rcases List.mem_cons.mp hq' with rfl | hq''
        · rw [hv] at hver
          cases hver
        · exact hfail q' hq'' rc2 out2 err2 hver
    · constructor
      · simp only [find_exiftool_go, hv]
        rw [ih.1]
        constructor
        · intro h q hq rc2 out2 err2 hver
          rcases List.mem_cons.mp hq with rfl | hq'
          · rw [hv] at hver
            cases hver
          · exact h q hq' rc2 out2 err2 hver
        · intro h q hq rc2 out2 err2 hver
          exact h q (List.mem_cons_of_mem p hq) rc2 out2 err2 hver
      · intro q v hq
        simp only [find_exiftool_go, hv] at hq
        obtain ⟨l₁, l₂, hl, hfail, hout⟩ := ih.2 q v hq
        refine ⟨p :: l₁, l₂, by simp [hl], ?_, hout⟩
        intro q' hq' rc2 out2 err2 hver
        rcases List.mem_cons.mp hq' with rfl | hq''
        · rw [hv] at hver
          cases hver
        · exact hfail q' hq'' rc2 out2 err2 hver

/-- C10: the locator tries, in this fixed order, `exe_dir\exiftool.exe`,
`exe_dir\exiftool(-k).exe` and bare `exiftool.exe`; it adopts the first
candidate whose version query exits 0 (every earlier candidate failed:
non-zero exit, or no exit result at all — timeout or exception), retaining
the stripped stdout as the version string; it reports not-found exactly
when no candidate succeeds; and on not-found the run performs no
filesystem event and issues no subprocess call beyond the version probes
themselves. -/
theorem c10_locator_order_and_abort (cfg : RunCfg) :
    possible_paths cfg.exe_directory =
      [pathJoin cfg.exe_directory "exiftool.exe",
       pathJoin cfg.exe_directory "exiftool(-k).exe",
       "exiftool.exe"]
    ∧ ((find_exiftool cfg.verOut cfg.exe_directory).1 = none ↔
        ∀ p ∈ possible_paths cfg.exe_directory, ∀ rc out err,
          cfg.verOut p = RunOutcome.ok rc out err → rc ≠ 0)
    ∧ (∀ p v, (find_exiftool cfg.verOut cfg.exe_directory).1 = some (p, v) →
        ∃ l₁ l₂, possible_paths cfg.exe_directory = l₁ ++ p :: l₂ ∧
          (∀ q ∈ l₁, ∀ rc out err, cfg.verOut q = RunOutcome.ok rc out err → rc ≠ 0) ∧
          ∃ out err, cfg.verOut p = RunOutcome.ok 0 out err ∧ v = pyStrip out)
    ∧ ((find_exiftool cfg.verOut cfg.exe_directory).1 = none →
        run_model cfg = ([], (find_exiftool cfg.verOut cfg.exe_directory).2)) := by
  refine ⟨rfl, (find_exiftool_go_spec cfg.verOut _).1,
    (find_exiftool_go_spec cfg.verOut _).2, ?_⟩
  intro h
  simp only [run_model, h]

theorem c10_witness :
    (find_exiftool (fun _ => RunOutcome.timeout) "D").1 = none ∧
    run_model
        ⟨fun _ => RunOutcome.timeout, Except.ok ["a.jpg"],
          fun _ => ⟨RunOutcome.timeout, RunOutcome.timeout⟩,
          fun _ => ⟨Except.ok 0,
            ⟨Except.ok 0, [], Except.ok (), Except.ok (), RunOutcome.timeout, false,
              Except.ok (), true, Except.ok 0⟩,
            Except.ok 0⟩,
          true, false, 1, fun _ => 0, "T", "D"⟩ =
      ([], (find_exiftool (fun _ => RunOutcome.timeout) "D").2) :=
  ⟨by decide,
    (c10_locator_order_and_abort
      ⟨fun _ => RunOutcome.timeout, Except.ok ["a.jpg"],
        fun _ => ⟨RunOutcome.timeout, RunOutcome.timeout⟩,
        fun _ => ⟨Except.ok 0,
          ⟨Except.ok 0, [], Except.ok (), Except.ok (), RunOutcome.timeout, false,
            Except.ok (), true, Except.ok 0⟩,
          Except.ok 0⟩,
        true, false, 1, fun _ => 0, "T", "D"⟩).2.2.2 (by decide)⟩

theorem mem_foldl_glob (dir : List String) (n : String) :
    ∀ (pats init : List String),
      n ∈ pats.foldl
          (fun acc e => acc ++ glob_glob dir e ++ glob_glob dir (toUpperStr e)) init ↔
        n ∈ init ∨ ∃ e ∈ pats, n ∈ glob_glob dir e ∨ n ∈ glob_glob dir (toUpperStr e) := by
  intro pats
  induction pats with
  | nil => intro init; simp
  | cons e t ih =>
    intro init
    rw [List.foldl_cons, ih]
    constructor
    · rintro (hin | ⟨q, hq, hg⟩)
      · rcases List.mem_append.mp hin with h1 | h2
        · rcases List.mem_append.mp h1 with h0 | hg1
          · exact Or.inl h0
          · exact Or.inr ⟨e, List.mem_cons_self e t, Or.inl hg1⟩
        · exact Or.inr ⟨e, List.mem_cons_self e t, Or.inr h2⟩
      · exact Or.inr ⟨q, List.mem_cons_of_mem e hq, hg⟩
    · rintro (h0 | ⟨q, hq, hg⟩)
      · exact Or.inl (List.mem_append.mpr (Or.inl (List.mem_append.mpr (Or.inl h0))))
      · rcases List.mem_cons.mp hq with rfl | hq'
        · rcases hg with hg | hg
          · exact Or.inl (List.mem_append.mpr (Or.inl (List.mem_append.mpr (Or.inr hg))))
          · exact Or.inl (List.mem_append.mpr (Or.inr hg))
        · exact Or.inr ⟨q, hq', hg⟩

/-- C8 (counterexample): discovery is not "exactly the files whose extension
matches case-insensitively": CPython's `glob` never matches a name whose
first character is a dot with a `*.ext` pattern, so `.a.jpg` — whose
`splitext` extension is `.jpg` — is not discovered. -/
theorem c8_counterexample :
    ¬ ∀ (dir : List String) (n : String),
        n ∈ get_image_files dir ↔ n ∈ dir ∧ spec_ext_match n = true := by
  intro h
  have hm := (h [".a.jpg"] ".a.jpg").mpr ⟨List.mem_singleton.mpr rfl, by decide⟩
  rw [show get_image_files [".a.jpg"] = [] from by decide] at hm
  cases hm

set_option maxHeartbeats 1600000 in
/-- C8 (amended): discovery returns a sorted, duplicate-free list holding
exactly the directory entries that do not begin with a dot and whose
lowercased name ends with one of `.jpg/.jpeg/.png/.tiff/.tif/.webp/.bmp` —
any mix of letter cases in the extension is found (Windows glob compares
case-insensitively), but dot-initial names are skipped by glob. -/
theorem c8_discovery_sorted_exact (dir : List String) :
    List.Sorted (· ≤ ·) (get_image_files dir)
    ∧ (get_image_files dir).Nodup
    ∧ ∀ n, n ∈ get_image_files dir ↔
        n ∈ dir ∧ strStartsWith n "." = false ∧
          (strEndsWith (toLowerStr n) ".jpg" = true ∨
           strEndsWith (toLowerStr n) ".jpeg" = true ∨
           strEndsWith (toLowerStr n) ".png" = true ∨
           strEndsWith (toLowerStr n) ".tiff" = true ∨
           strEndsWith (toLowerStr n) ".tif" = true ∨
           strEndsWith (toLowerStr n) ".webp" = true ∨
           strEndsWith (toLowerStr n) ".bmp" = true) := by
  refine ⟨List.sorted_insertionSort _ _,
    ((List.perm_insertionSort _ _).symm).nodup (List.nodup_dedup _), ?_⟩
  intro n
  simp only [get_image_files]
  rw [(List.perm_insertionSort _ _).mem_iff, List.mem_dedup, mem_foldl_glob]
  have e1 : toLowerStr (strDrop "*.jpg" 1) = ".jpg" := rfl
  have e2 : toLowerStr (strDrop "*.jpeg" 1) = ".jpeg" := rfl
  have e3 : toLowerStr (strDrop "*.png" 1) = ".png" := rfl
  have e4 : toLowerStr (strDrop "*.tiff" 1) = ".tiff" := rfl
  have e5 : toLowerStr (strDrop "*.tif" 1) = ".tif" := rfl
  have e6 : toLowerStr (strDrop "*.webp" 1) = ".webp" := rfl
  have e7 : toLowerStr (strDrop "*.bmp" 1) = ".bmp" := rfl
  have u1 : toLowerStr (strDrop (toUpperStr "*.jpg") 1) = ".jpg" := rfl
  have u2 : toLowerStr (strDrop (toUpperStr "*.jpeg") 1) = ".jpeg" := rfl
  have u3 : toLowerStr (strDrop (toUpperStr "*.png") 1) = ".png" := rfl
  have u4 : toLowerStr (strDrop (toUpperStr "*.tiff") 1) = ".tiff" := rfl
  have u5 : toLowerStr (strDrop (toUpperStr "*.tif") 1) = ".tif" := rfl
  have u6 : toLowerStr (strDrop (toUpperStr "*.webp") 1) = ".webp" := rfl
  have u7 : toLowerStr (strDrop (toUpperStr "*.bmp") 1) = ".bmp" := rfl
  simp only [glob_patterns, glob_glob, glob_match, List.mem_filter, List.mem_cons,
    List.not_mem_nil, or_false, e1, e2, e3, e4, e5, e6, e7, u1, u2, u3, u4, u5, u6, u7]
  simp only [List.mem_singleton, exists_eq_or_imp, exists_eq_left,
    decide_eq_true_eq, Bool.not_eq_true]
  constructor
  · rintro (h | h) <;> tauto
  · rintro ⟨hdir, hdot, hext⟩
    rcases hext with h | h | h | h | h | h | h <;> tauto

theorem c8_witness :
    "b.JPG" ∈ get_image_files ["b.JPG", "x.txt"] :=
  ((c8_discovery_sorted_exact ["b.JPG", "x.txt"]).2.2 "b.JPG").mpr
    ⟨by decide, by decide, Or.inl (by decide)⟩

/-- Frame: any filesystem write of one `remove_exif_data` call targets the
chosen backup path, the temp path, or the file itself. -/
theorem remove_exif_data_target_sub (senv : StripEnv)
    (tool file_path actual_format : String) (create_backup : Bool) (pid : Nat)
    (phash : String → Int) (temp_dir : String) :
    ((remove_exif_data senv tool file_path actual_format create_backup pid phash
        temp_dir).2.1).map FsEvent.target ⊆
      [backup_path_of senv.existing file_path,
       temp_path temp_dir pid phash file_path actual_format, file_path] := by
  cases hc : create_backup <;>
  · rcases h0 : senv.size0 with e | n
    · simp [remove_exif_data, h0]
    by_cases hm : check_format_mismatch file_path actual_format = true
    all_goals rcases hcb : senv.copyBackup with e | u
    all_goals try simp [remove_exif_data, h0, hcb, hm, FsEvent.target, List.cons_subset]
    all_goals rcases hct : senv.copyTemp with e | u
    all_goals try simp [remove_exif_data, h0, hcb, hm, hct, FsEvent.target,
      List.cons_subset]
    all_goals rcases hs : senv.stripRun with ⟨rc, out, err⟩ | _ | m
    all_goals try simp [remove_exif_data, h0, hcb, hm, hct, hs, FsEvent.target,
      List.cons_subset]
    all_goals by_cases hrc : rc = 0
    all_goals by_cases hte : senv.tempExists = true
    all_goals rcases hcb2 : senv.copyBack with e | u
    all_goals rcases hs1 : senv.size1 with e | n1
    all_goals by_cases hro : senv.removeOk = true
    all_goals simp [remove_exif_data, h0, hcb, hm, hct, hs, hrc, hte, hcb2, hs1, hro,
      FsEvent.target, List.cons_subset]

/-- Every event of the processing loop belongs to the `remove_exif_data`
call of one of the listed files. -/
theorem process_files_events_sub (stepEnv : String → LoopEnv)
    (fmtOf : String → String) (tool : String) (cb : Bool) (pid : Nat)
    (phash : String → Int) (td : String) (files : List String) :
    ∀ ev ∈ (process_files stepEnv fmtOf tool cb pid phash td files).2,
      ∃ g ∈ files, ev ∈ (remove_exif_data (stepEnv g).strip tool g (fmtOf g) cb pid
        phash td).2.1 := by
  induction files with
  | nil => intro ev hev; cases hev
  | cons f rest ih =>
    intro ev hev
    rcases h0 : (stepEnv f).preSize with e | n
    · simp [process_files, h0] at hev
    by_cases hr : (remove_exif_data (stepEnv f).strip tool f (fmtOf f) cb pid phash
        td).1 = true
    · rcases h1 : (stepEnv f).postSize with e | n1
      · simp only [process_files, h0, hr, h1, if_true] at hev
        exact ⟨f, List.mem_cons_self f rest, hev⟩
      · rcases h2 : (process_files stepEnv fmtOf tool cb pid phash td rest).1 with
          e2 | t2
        · simp only [process_files, h0, hr, h1, h2, if_true] at hev
          rcases List.mem_append.mp hev with h | h
          · exact ⟨f, List.mem_cons_self f rest, h⟩
          · obtain ⟨g, hg, hg2⟩ := ih ev h
            exact ⟨g, List.mem_cons_of_mem f hg, hg2⟩
        · obtain ⟨p2, fl2, d2⟩ := t2
          simp only [process_files, h0, hr, h1, h2, if_true] at hev
          rcases List.mem_append.mp hev with h | h
          · exact ⟨f, List.mem_cons_self f rest, h⟩
          · obtain ⟨g, hg, hg2⟩ := ih ev h
            exact ⟨g, List.mem_cons_of_mem f hg, hg2⟩
    · rcases h2 : (process_files stepEnv fmtOf tool cb pid phash td rest).1 with
        e2 | t2
      · simp only [process_files, h0, hr, h2, if_false, Bool.false_eq_true] at hev
        rcases List.mem_append.mp hev with h | h
        · exact ⟨f, List.mem_cons_self f rest, h⟩
        · obtain ⟨g, hg, hg2⟩ := ih ev h
          exact ⟨g, List.mem_cons_of_mem f hg, hg2⟩
      · obtain ⟨p2, fl2, d2⟩ := t2
        simp only [process_files, h0, hr, h2, if_false, Bool.false_eq_true] at hev
        rcases List.mem_append.mp hev with h | h
        · exact ⟨f, List.mem_cons_self f rest, h⟩
        · obtain ⟨g, hg, hg2⟩ := ih ev h
          exact ⟨g, List.mem_cons_of_mem f hg, hg2⟩

set_option maxHeartbeats 1600000 in
/-- C9: a discovered file whose inspection reports no metadata (no probe
error, `has_exif` false) never enters the stripping list, and no attempted
filesystem write of the entire run targets it: it gets no backup, no temp
copy, no tool write — its bytes and size are untouched.  The side
conditions say that `f` exists in every per-call filesystem snapshot
(it was discovered) and is not a path inside the temp directory's
`exif_temp_` namespace (discovered files live in the program directory). -/
theorem c9_no_metadata_untouched (cfg : RunCfg) (tool ver f : String)
    (hfind : (find_exiftool cfg.verOut cfg.exe_directory).1 = some (tool, ver))
    (_hprobe : (get_file_info tool f (cfg.info f)).1.2.2 = none)
    (hnoexif : (get_file_info tool f (cfg.info f)).1.2.1 = false)
    (hex : ∀ g, f ∈ ((cfg.step g).strip).existing)
    (hsep : ∀ s, f ≠ (cfg.temp_dir ++ "\\exif_temp_") ++ s) :
    (∀ l, f ∉ files_with_exif (fun g => (get_file_info tool g (cfg.info g)).1) l)
    ∧ f ∉ ((run_model cfg).1).map FsEvent.target := by
  have hnot : ∀ l, f ∉ files_with_exif (fun g => (get_file_info tool g (cfg.info g)).1) l := by
    intro l hf
    have hp := (List.mem_filter.mp hf).2
    simp only [hnoexif, decide_eq_true_eq] at hp
    exact Bool.false_ne_true hp.2
  refine ⟨hnot, ?_⟩
  intro hmap
  obtain ⟨ev, hev, htgt⟩ := List.mem_map.mp hmap
  rw [run_model] at hev
  simp only [hfind] at hev
  rcases hl : cfg.listing with e | dir
  · simp only [hl] at hev
    simp at hev
  simp only [hl] at hev
  by_cases hgate : files_with_exif (fun g => (get_file_info tool g (cfg.info g)).1)
      (get_image_files dir) = [] ∨ ¬cfg.proceed = true
  · rw [if_pos hgate] at hev
    simp at hev
  rw [if_neg hgate] at hev
  obtain ⟨g, hg, hevg⟩ := process_files_events_sub cfg.step
    (fmt_of_probe (fun g => (get_file_info tool g (cfg.info g)).1)) tool
    cfg.create_backup cfg.pid cfg.phash cfg.temp_dir
    (files_with_exif (fun g => (get_file_info tool g (cfg.info g)).1)
      (get_image_files dir)) ev hev
  have htin := remove_exif_data_target_sub ((cfg.step g).strip) tool g
    (fmt_of_probe (fun g => (get_file_info tool g (cfg.info g)).1) g)
    cfg.create_backup cfg.pid cfg.phash cfg.temp_dir
    (List.mem_map.mpr ⟨ev, hevg, htgt⟩)
  simp only [List.mem_cons, List.not_mem_nil, or_false] at htin
  rcases htin with hb | ht | horig
  · exact backup_path_of_not_mem ((cfg.step g).strip).existing g (hb ▸ hex g)
  · obtain ⟨s, hshape⟩ := temp_path_shape cfg.temp_dir cfg.pid cfg.phash g
      (fmt_of_probe (fun g => (get_file_info tool g (cfg.info g)).1) g)
    exact hsep s (ht.trans hshape)
  · subst horig
    exact hnot (get_image_files dir) hg

theorem c9_witness :
    "shot.png" ∉ files_with_exif
        (fun g => (get_file_info "D\\exiftool.exe" g (c9cfg.info g)).1)
        (get_image_files ["photo.jpg", "shot.png"]) ∧
    "shot.png" ∉ ((run_model c9cfg).1).map FsEvent.target := by
  have h := c9_no_metadata_untouched c9cfg "D\\exiftool.exe" "12" "shot.png"
    (by decide) (by decide) (by decide)
    (fun g => (by decide : "shot.png" ∈ (["photo.jpg", "shot.png"] : List String)))
    (fun s hcontra => by
      have hl := congrArg String.length hcontra
      rw [String.length_append] at hl
      rw [show ("shot.png" : String).length = 8 from rfl] at hl
      rw [show (c9cfg.temp_dir ++ "\\exif_temp_" : String).length = 12 from rfl] at hl
      omega)
  exact ⟨h.1 (get_image_files ["photo.jpg", "shot.png"]), h.2⟩

theorem c7_witness :
    hashResidue (fun s => (s.length : Int)) "a" ≠
      hashResidue (fun s => (s.length : Int)) "ab" ∧
    temp_name 3 (fun s => (s.length : Int)) "a" "PNG" ≠
      temp_name 3 (fun s => (s.length : Int)) "ab" "PNG" :=
  ⟨by decide, c7_temp_name_uniqueness (fun s => (s.length : Int)) 3 "a" "ab" "PNG"
    (by decide)⟩

end RemoveExif
